import Mathlib

/-!
Verification of the pgserver core of sqlfs: a read-only PostgreSQL
wire-protocol server backed by SQLite.  The definitions below are a shallow
embedding of the Go source (package `pgserver`): pure helpers become Lean
functions, the per-connection message loop becomes an explicit step function
on connection state, and the server/reload machinery becomes explicit state
passing.  External library behavior (the SQLite driver, the network) enters
as function parameters.
-/

namespace SqlFs

/-- Column metadata as obtained from rows.ColumnTypes(): the column name and
the declared database type name (col.DatabaseTypeName()). -/
structure Col where
  name : String
  declType : String
deriving Repr, DecidableEq

/-- A value scanned from the engine into an `any` destination: the SQLite
driver yields 64-bit integers, 64-bit floats, strings, booleans and byte
blobs; a NULL column scans to nil, modelled as `Option.none` around this
type. -/
inductive Value where
  | vInt (n : Int)
  | vFloat (f : Float)
  | vText (s : String)
  | vBool (b : Bool)
  | vBlob (bs : List Nat)
deriving Repr

/-- A RowDescription field as built by executeQuery (part_004 lines 41-49). -/
structure FieldDescription where
  name : String
  tableOID : Nat
  tableAttributeNumber : Nat
  dataTypeOID : Nat
  dataTypeSize : Int
  typeModifier : Int
  format : Nat
deriving Repr, DecidableEq

/-- The backend (server-to-client) messages the core sends. -/
inductive BackendMsg where
  | authenticationOk
  | authenticationCleartextPassword
  | parameterStatus (name value : String)
  | backendKeyData (processID secretKey : Nat)
  | readyForQuery (txStatus : Char)
  | emptyQueryResponse
  | rowDescription (fields : List FieldDescription)
  | dataRow (values : List (Option String))
  | commandComplete (tag : String)
  | errorResponse (severity code message : String)
  | parseComplete
  | bindComplete
  | parameterDescription (parameterOIDs : List Nat)
  | noData
deriving Repr, DecidableEq

/-- The frontend (client-to-server) messages the query loop and the
authenticator dispatch on.  `unsupported` stands for any message kind the
switch in handleConn has no case for; its argument is the Go type name that
fmt's %T verb would print for it. -/
inductive FrontendMsg where
  | queryMsg (s : String)
  | parse (query : String)
  | bind
  | describe (objectType : Char)
  | execute
  | sync
  | terminate
  | passwordMessage (password : String)
  | unsupported (typeName : String)
deriving Repr, DecidableEq

/-- Go's unicode.IsSpace on the characters strings.TrimSpace actually trims
in this code base: ASCII white space plus NEL and NBSP. -/
def goIsSpace (c : Char) : Bool :=
  c = ' ' || c = '\t' || c = '\n' || c = '\x0b' || c = '\x0c' || c = '\r' ||
    c = '\u0085' || c = '\u00A0'

/-- Drop white space from both ends of a character list. -/
def listTrim (l : List Char) : List Char :=
  ((l.dropWhile goIsSpace).reverse.dropWhile goIsSpace).reverse

/-- strings.TrimSpace: drop white space from both ends. -/
def trimSpace (s : String) : String :=
  ⟨listTrim s.data⟩

/-- PostgreSQL type OIDs used by the type mapper (part_004 lines 13-20). -/
def oidInt8 : Nat := 20

def oidFloat8 : Nat := 701

def oidBool : Nat := 16

def oidText : Nat := 25

def oidBytea : Nat := 17

/-- The integer-family declared type names of goTypeToOID's first case. -/
def integerNames : List String :=
  ["INTEGER", "INT", "INT2", "INT4", "INT8", "BIGINT", "SMALLINT"]

/-- The float/decimal/numeric-family names of goTypeToOID's second case. -/
def floatNames : List String :=
  ["REAL", "FLOAT", "FLOAT4", "FLOAT8", "DOUBLE", "NUMERIC", "DECIMAL"]

/-- The boolean names of goTypeToOID's third case. -/
def boolNames : List String := ["BOOL", "BOOLEAN"]

/-- The blob names of goTypeToOID's fourth case. -/
def blobNames : List String := ["BLOB"]

/-- strings.ToUpper as it acts on declared SQLite type names (ASCII):
upper-case every character. -/
def strToUpper (s : String) : String :=
  ⟨s.data.map Char.toUpper⟩

/-- goTypeToOID (part_004 lines 92-105): switch on the upper-cased declared
type name; TEXT (25) is the default for anything not explicitly mapped. -/
def goTypeToOID (dbTypeName : String) : Nat :=
  if strToUpper dbTypeName ∈ integerNames then oidInt8
  else if strToUpper dbTypeName ∈ floatNames then oidFloat8
  else if strToUpper dbTypeName ∈ boolNames then oidBool
  else if strToUpper dbTypeName ∈ blobNames then oidBytea
  else oidText

/-- fmt.Sprintf's %v rendering of a scanned value: decimal for integers,
the string itself for text, true/false for booleans, the bracketed
space-separated byte list for blobs.  The float case models Go's shortest
round-tripping decimal rendering with Lean's Float rendering; no claim
depends on particular float digit strings. -/
def goFormat : Value → String
  | .vInt n => toString n
  | .vFloat f => toString f
  | .vText s => s
  | .vBool b => if b then "true" else "false"
  | .vBlob bs => "[" ++ String.intercalate " " (bs.map toString) ++ "]"

/-- One cell of a DataRow (part_004 lines 69-75): a nil scanned value stays
nil (the NULL marker, length -1 on the wire); any other value is rendered
with %v. -/
def encodeValue : Option Value → Option String
  | none => none
  | some v => some (goFormat v)

/-- The DataRow message for one scanned row. -/
def encodeRow (r : List (Option Value)) : BackendMsg :=
  .dataRow (r.map encodeValue)

/-- The FieldDescription executeQuery builds for one column (part_004 lines
41-49): table OID 0, attribute number 0, OID from the type mapper, variable
size, default modifier, text format. -/
def fieldOf (c : Col) : FieldDescription :=
  { name := c.name, tableOID := 0, tableAttributeNumber := 0,
    dataTypeOID := goTypeToOID c.declType, dataTypeSize := -1,
    typeModifier := -1, format := 0 }

/-- What one db.Query call observes, as executeQuery consumes it: either the
Query/ColumnTypes call fails with an engine error, or it yields column
metadata and the successfully scanned rows, with rows.Scan or rows.Err
possibly failing after that prefix (rowErr). -/
inductive ExecResult where
  | queryError (e : String)
  | rowsOk (cols : List Col) (rows : List (List (Option Value))) (rowErr : Option String)

/-- A Store Handle's queryable behavior: db.Query on a given SQL text. -/
structure DB where
  exec : String → ExecResult

/-- executeQuery (part_004 lines 24-90): trim the query, run it, and send the
messages in program order.  On a failed Query: a single ErrorResponse with
severity ERROR and SQLSTATE 42601 carrying the engine's error text.  On
success: RowDescription, one DataRow per scanned row, then either the
ErrorResponse for a mid-stream Scan/Err failure or CommandComplete with the
"SELECT n" tag. -/
def executeQuery (db : DB) (query : String) : List BackendMsg :=
  match db.exec (trimSpace query) with
  | .queryError e => [.errorResponse "ERROR" "42601" e]
  | .rowsOk cols rows rowErr =>
      .rowDescription (cols.map fieldOf) ::
        (rows.map encodeRow ++
          match rowErr with
          | some e => [.errorResponse "ERROR" "42601" e]
          | none => [.commandComplete ("SELECT " ++ toString rows.length)])

/-- handleAuth (server_test.go lines 231-263).  The client's reply to the
cleartext-password challenge is passed in as the message backend.Receive()
returns.  Result: the messages sent, and whether handleAuth returns nil
(true = the connection proceeds to the query loop; false = handleConn
returns and the connection is closed). -/
def handleAuth (username password : String) (reply : FrontendMsg) :
    List BackendMsg × Bool :=
  if username = "" then
    ([.authenticationOk], true)
  else
    match reply with
    | .passwordMessage pw =>
        if pw = password then
          ([.authenticationCleartextPassword, .authenticationOk], true)
        else
          ([.authenticationCleartextPassword,
            .errorResponse "FATAL" "28P01" "password authentication failed"], false)
    | _ =>
        ([.authenticationCleartextPassword,
          .errorResponse "FATAL" "28P01" "expected password message"], false)

/-- Server options (part_005 lines 16-21). -/
structure Options where
  port : Nat
  dbPath : String
  username : String
  password : String
deriving Repr, DecidableEq

/-- The client's plain startup message: the parameters it carries.  handleConn
type-switches on the startup message but never reads its contents. -/
structure StartupMessage where
  user : String
  database : String
deriving Repr, DecidableEq

/-- The authentication phase of handleConn (part_005 line 135): after the
startup message is received, authentication is delegated to handleAuth with
the server's configured credentials only; nothing from the startup message
is consulted. -/
def connAuth (opts : Options) (startup : StartupMessage) (reply : FrontendMsg) :
    List BackendMsg × Bool :=
  handleAuth opts.username opts.password reply

/-- The Go type name fmt's %T verb prints for a message the query loop's
switch has no case for. -/
def goTypeName : FrontendMsg → String
  | .queryMsg _ => "*pgproto3.Query"
  | .parse _ => "*pgproto3.Parse"
  | .bind => "*pgproto3.Bind"
  | .describe _ => "*pgproto3.Describe"
  | .execute => "*pgproto3.Execute"
  | .sync => "*pgproto3.Sync"
  | .terminate => "*pgproto3.Terminate"
  | .passwordMessage _ => "*pgproto3.PasswordMessage"
  | .unsupported t => t

/-- Per-connection state for the extended query protocol (part_005 lines
160-163): the last Parse'd query; the Go zero value is the empty string. -/
structure ConnState where
  preparedQuery : String
deriving Repr, DecidableEq

/-- One iteration of handleConn's query loop (part_005 lines 166-233):
dispatch on the received message.  Returns the connection state after the
message, the backend messages sent for it, and the SQL texts executed
against the store (the executeQuery calls made).  `db` is the Store Handle
the Query/Execute cases capture under s.mu.RLock for this one statement. -/
def handleMsg (db : DB) (st : ConnState) (msg : FrontendMsg) :
    ConnState × List BackendMsg × List String :=
  match msg with
  | .queryMsg s =>
      let query := trimSpace s
      if query = "" ∨ query = ";" then
        (st, [.emptyQueryResponse, .readyForQuery 'I'], [])
      else
        (st, executeQuery db query ++ [.readyForQuery 'I'], [query])
  | .parse q => ({ st with preparedQuery := trimSpace q }, [.parseComplete], [])
  | .bind => (st, [.bindComplete], [])
  | .describe objectType =>
      (st, .parameterDescription [] ::
        (if objectType = 'S' then [.noData] else []), [])
  | .execute =>
      let query := st.preparedQuery
      if query = "" ∨ query = ";" then
        (st, [.emptyQueryResponse], [])
      else
        (st, executeQuery db query, [query])
  | .sync => (st, [.readyForQuery 'I'], [])
  | .terminate => (st, [], [])
  | m =>
      (st, [.errorResponse "ERROR" "0A000"
              ("unsupported message type " ++ goTypeName m),
            .readyForQuery 'I'], [])

/-- The query loop over a sequence of received messages; a Terminate message
makes handleConn return, so nothing after it is processed.  Returns all
messages sent and all SQL texts executed, in order. -/
def runConn (db : DB) (st : ConnState) :
    List FrontendMsg → List BackendMsg × List String
  | [] => ([], [])
  | msg :: rest =>
      if msg = .terminate then ([], [])
      else
        let step := handleMsg db st msg
        let tail := runConn db step.1 rest
        (step.2.1 ++ tail.1, step.2.2 ++ tail.2)

/-- A Store Handle as produced by openSQLite: either a fresh, empty
in-memory SQLite instance (sql.Open "sqlite" ":memory:"), or a read-only
handle on the file URI it was opened with. -/
inductive Handle where
  | mem
  | file (uri : String)
deriving Repr, DecidableEq

/-- openSQLite (part_005 lines 236-251).  The external driver's behavior is a
parameter: `ping path` is the outcome of db.Ping() on the read-only handle
for `path` (none = reachable, some e = failure, after which the handle is
closed and the error returned).  sql.Open itself is lazy and only fails for
an unregistered driver, so it is modelled as always succeeding.  An empty or
":memory:" path short-circuits to a fresh in-memory instance: no read-only
URI is built and no Ping is performed. -/
def openSQLite (ping : String → Option String) (path : String) :
    Except String Handle :=
  if path = "" ∨ path = ":memory:" then
    .ok .mem
  else
    match ping path with
    | some e => .error e
    | none => .ok (.file ("file:" ++ path ++ "?mode=ro"))

/-- The server-wide mutable state: the published Store Handle (s.db).
`none` models a nil pointer. -/
structure SrvState where
  db : Option Handle
deriving Repr, DecidableEq

/-- New (part_005 lines 32-38): open the initial Store Handle; fail fast with
a wrapped error when that open fails. -/
def New (ping : String → Option String) (opts : Options) :
    Except String SrvState :=
  match openSQLite ping opts.dbPath with
  | .error e => .error ("opening database: " ++ e)
  | .ok h => .ok { db := some h }

/-- The events observable during Reload, in program order: taking and
releasing the writer side of s.mu, swapping the published handle reference,
and closing a handle. -/
inductive REvent where
  | lockAcquire
  | swap (old : Option Handle) (new : Handle)
  | lockRelease
  | closeHandle (h : Handle)
deriving Repr, DecidableEq

/-- Reload (part_005 lines 77-90): open the new handle; on failure return the
wrapped error with the published reference untouched and no events; on
success swap the reference under the exclusive lock, release the lock, and
only then close the superseded handle (when there is one). -/
def Reload (ping : String → Option String) (path : String) (s : SrvState) :
    Except String Unit × SrvState × List REvent :=
  match openSQLite ping path with
  | .error e => (.error ("opening new database: " ++ e), s, [])
  | .ok newDB =>
      (.ok (), { db := some newDB },
       [REvent.lockAcquire, REvent.swap s.db newDB, REvent.lockRelease] ++
         match s.db with
         | some old => [REvent.closeHandle old]
         | none => [])

/-! ### Interleaving model for the Store Handle capture invariant

Store Handles are identified by numbers.  Each connection task handling one
Query/Execute message goes through three phases: it has received the
statement, it has copied the published handle under the read lock (part_005
lines 181-183 and 211-213), and it has finished.  While running it accesses
only its copied handle (executeQuery receives the copy, never the Server).
A Reload publishes a new handle id.  Actions from different tasks and from
the reloader interleave arbitrarily. -/

/-- The phase of one connection task with respect to one statement. -/
inductive TaskPhase where
  | idle
  | running (captured : Nat)
  | finished (captured : Nat)
deriving Repr, DecidableEq

/-- One connection task: its phase and the handle ids its statement execution
has read from so far. -/
structure Task where
  phase : TaskPhase
  accesses : List Nat
deriving Repr, DecidableEq

/-- The server-wide picture: the published handle id and the tasks. -/
structure Sys where
  current : Nat
  tasks : List Task
deriving Repr, DecidableEq

/-- An atomic action of some task or of the reloader. -/
inductive Action where
  | capture (tid : Nat)
  | access (tid : Nat)
  | finish (tid : Nat)
  | reload (h : Nat)
deriving Repr, DecidableEq

/-- Replace the i-th element of a list by f of it. -/
def modifyNth (f : α → α) : Nat → List α → List α
  | _, [] => []
  | 0, a :: as => f a :: as
  | n + 1, a :: as => a :: modifyNth f n as

/-- The effect of one atomic action.  `capture` is the read-locked copy
`db := s.db` — the RWMutex makes it atomic with respect to Reload's swap;
`access` is one read executeQuery performs through the captured copy;
`reload` is the write-locked swap of the published reference, which touches
nothing task-local. -/
def applyAction (s : Sys) (a : Action) : Sys :=
  match a with
  | .capture i =>
      { s with tasks := modifyNth (fun t =>
          match t.phase with
          | .idle => { t with phase := .running s.current }
          | _ => t) i s.tasks }
  | .access i =>
      { s with tasks := modifyNth (fun t =>
          match t.phase with
          | .running h => { t with accesses := t.accesses ++ [h] }
          | _ => t) i s.tasks }
  | .finish i =>
      { s with tasks := modifyNth (fun t =>
          match t.phase with
          | .running h => { t with phase := .finished h }
          | _ => t) i s.tasks }
  | .reload h => { s with current := h }

/-- Run a schedule of interleaved actions. -/
def runSys (s : Sys) (as : List Action) : Sys :=
  as.foldl applyAction s

/-- A task never mixes handles: before capture it has accessed nothing, and
from capture on every access went to the one captured handle. -/
def taskOK (t : Task) : Bool :=
  match t.phase with
  | .idle => t.accesses.isEmpty
  | .running h => t.accesses.all fun x => x == h
  | .finished h => t.accesses.all fun x => x == h

/-- Every task of the system satisfies `taskOK`. -/
def sysOK (s : Sys) : Bool :=
  s.tasks.all taskOK

/-- A sample Store Handle behavior for concrete runs: every statement yields
one INTEGER column `n` with a single row containing 1. -/
def sampleDB : DB :=
  ⟨fun _ => .rowsOk [⟨"n", "INTEGER"⟩] [[some (.vInt 1)]] none⟩

/-! ## Helper lemmas -/

/-- dropWhile is idempotent. -/
theorem dropWhile_idem (p : α → Bool) (l : List α) :
    (l.dropWhile p).dropWhile p = l.dropWhile p := by
  induction l with
  | nil => rfl
  | cons a l ih =>
      by_cases h : p a
      · simp [List.dropWhile_cons, h, ih]
      · simp [List.dropWhile_cons, h]

/-- The head of a dropWhile result fails the predicate. -/
theorem dropWhile_head?_false (p : α → Bool) (l : List α) :
    ∀ a, (l.dropWhile p).head? = some a → p a = false := by
  induction l with
  | nil => intro a h; simp [List.dropWhile] at h
  | cons x l ih =>
      intro a h
      by_cases hx : p x
      · exact ih a (by simpa [List.dropWhile_cons, hx] using h)
      · simp [List.dropWhile_cons, hx] at h
        subst h
        simpa using hx

/-- A list whose head fails the predicate is unchanged by dropWhile. -/
theorem dropWhile_eq_self_of_head? (p : α → Bool) (l : List α)
    (h : ∀ a, l.head? = some a → p a = false) : l.dropWhile p = l := by
  cases l with
  | nil => rfl
  | cons x l => simp [List.dropWhile_cons, h x rfl]

/-- A nonempty dropWhile result keeps the original last element. -/
theorem dropWhile_getLast? (p : α → Bool) (l : List α)
    (h : l.dropWhile p ≠ []) : (l.dropWhile p).getLast? = l.getLast? := by
  induction l with
  | nil => simp [List.dropWhile] at h
  | cons x l ih =>
      by_cases hx : p x
      · have hdw : (x :: l).dropWhile p = l.dropWhile p := by
          simp [List.dropWhile_cons, hx]
        rw [hdw] at h ⊢
        have hl : l ≠ [] := by
          intro hnil
          rw [hnil] at h
          simp [List.dropWhile] at h
        rw [ih h]
        cases l with
        | nil => exact absurd rfl hl
        | cons y l2 => rw [List.getLast?_cons_cons]
      · simp [List.dropWhile_cons, hx]

/-- listTrim is idempotent. -/
theorem listTrim_idem (l : List Char) : listTrim (listTrim l) = listTrim l := by
  have hfront :
      (((l.dropWhile goIsSpace).reverse.dropWhile goIsSpace).reverse).dropWhile goIsSpace =
        ((l.dropWhile goIsSpace).reverse.dropWhile goIsSpace).reverse := by
    apply dropWhile_eq_self_of_head?
    intro a ha
    rw [List.head?_reverse] at ha
    by_cases hB : (l.dropWhile goIsSpace).reverse.dropWhile goIsSpace = []
    · rw [hB] at ha; simp at ha
    · rw [dropWhile_getLast? _ _ hB, List.getLast?_reverse] at ha
      exact dropWhile_head?_false _ _ a ha
  unfold listTrim
  rw [hfront, List.reverse_reverse, dropWhile_idem]

/-- trimSpace is idempotent: trimming a trimmed string changes nothing. -/
theorem trimSpace_idem (s : String) : trimSpace (trimSpace s) = trimSpace s :=
  congrArg String.mk (listTrim_idem s.data)

/-- Applying a pointwise-preserved predicate through modifyNth. -/
theorem modifyNth_all (p : α → Bool) (f : α → α)
    (hf : ∀ a, p a = true → p (f a) = true) :
    ∀ (n : Nat) (l : List α), l.all p = true → (modifyNth f n l).all p = true := by
  intro n l
  induction l generalizing n with
  | nil => intro h; simpa [modifyNth] using h
  | cons a l ih =>
      intro h
      simp only [List.all_cons, Bool.and_eq_true] at h
      rcases n with _ | m
      · simp only [modifyNth, List.all_cons, Bool.and_eq_true]
        exact ⟨hf a h.1, h.2⟩
      · simp only [modifyNth, List.all_cons, Bool.and_eq_true]
        exact ⟨h.1, ih m h.2⟩

/-- Every single interleaved action preserves the per-task capture
invariant. -/
theorem sysOK_applyAction (s : Sys) (a : Action) (h : sysOK s = true) :
    sysOK (applyAction s a) = true := by
  cases a with
  | capture i =>
      simp only [applyAction, sysOK] at h ⊢
      refine modifyNth_all _ _ ?_ i s.tasks h
      intro t ht
      obtain ⟨ph, acc⟩ := t
      cases ph with
      | idle =>
          simp only [taskOK, List.isEmpty_eq_true] at ht
          simp [taskOK, ht]
      | running hc => simpa [taskOK] using ht
      | finished hc => simpa [taskOK] using ht
  | access i =>
      simp only [applyAction, sysOK] at h ⊢
      refine modifyNth_all _ _ ?_ i s.tasks h
      intro t ht
      obtain ⟨ph, acc⟩ := t
      cases ph with
      | idle => simpa [taskOK] using ht
      | running hc =>
          simp only [taskOK, List.all_append, Bool.and_eq_true] at ht ⊢
          exact ⟨ht, by simp⟩
      | finished hc => simpa [taskOK] using ht
  | finish i =>
      simp only [applyAction, sysOK] at h ⊢
      refine modifyNth_all _ _ ?_ i s.tasks h
      intro t ht
      obtain ⟨ph, acc⟩ := t
      cases ph with
      | idle => simpa [taskOK] using ht
      | running hc => simpa [taskOK] using ht
      | finished hc => simpa [taskOK] using ht
  | reload hnew => simpa [applyAction, sysOK] using h

/-! ## Claim theorems -/

/-- Claim C1: the published Store Handle is a single reference (one `current`
field of the system state); a connection task copies it once, atomically,
under the read lock, and from then on every access of that one statement's
execution goes to the copied handle — under every interleaving with
concurrent reloads, no statement ever mixes pre- and post-reload handles. -/
theorem handle_isolation (init : Sys) (as : List Action)
    (h : sysOK init = true) : sysOK (runSys init as) = true := by
  induction as generalizing init with
  | nil => simpa [runSys] using h
  | cons a as ih =>
      have h2 := sysOK_applyAction init a h
      simpa [runSys, List.foldl_cons] using ih (applyAction init a) h2

/-- Witness for C1: two idle tasks; task 0 captures the initial handle 0, a
reload publishes handle 5, task 1 captures 5, and both keep accessing only
what they captured. -/
theorem handle_isolation_witness :
    sysOK (runSys ⟨0, [⟨.idle, []⟩, ⟨.idle, []⟩]⟩
      [.capture 0, .reload 5, .access 0, .capture 1, .access 1, .access 0,
       .finish 0]) = true :=
  handle_isolation ⟨0, [⟨.idle, []⟩, ⟨.idle, []⟩]⟩
    [.capture 0, .reload 5, .access 0, .capture 1, .access 1, .access 0,
     .finish 0] (by decide)

/-- Claim C5: the pipelined extended-protocol sequence Parse, Bind,
Describe (statement target), Execute, Sync for a valid non-empty statement
produces exactly ParseComplete, BindComplete, the empty ParameterDescription
followed by NoData, the result stream (RowDescription, the DataRows,
CommandComplete), then one final ReadyForQuery — and none of the messages
before Sync's reply is a ReadyForQuery. -/
theorem extended_pipeline (db : DB) (q : String) (cols : List Col)
    (rows : List (List (Option Value)))
    (hne : ¬(trimSpace q = "" ∨ trimSpace q = ";"))
    (hexec : db.exec (trimSpace q) = .rowsOk cols rows none) :
    runConn db ⟨""⟩ [.parse q, .bind, .describe 'S', .execute, .sync] =
      (([.parseComplete, .bindComplete, .parameterDescription [], .noData,
         .rowDescription (cols.map fieldOf)] ++ rows.map encodeRow ++
         [.commandComplete ("SELECT " ++ toString rows.length)]) ++
        [.readyForQuery 'I'],
       [trimSpace q]) ∧
    ∀ m ∈ [BackendMsg.parseComplete, .bindComplete, .parameterDescription [],
           .noData, .rowDescription (cols.map fieldOf)] ++
          rows.map encodeRow ++
          [.commandComplete ("SELECT " ++ toString rows.length)],
      m ≠ .readyForQuery 'I' := by
  constructor
  · simp [runConn, handleMsg, executeQuery, trimSpace_idem, hexec, hne]
  · intro m hm
    rcases List.mem_append.mp hm with h12 | hcc
    · rcases List.mem_append.mp h12 with h1 | h2
      · fin_cases h1 <;> simp
      · obtain ⟨r, hr, rfl⟩ := List.mem_map.mp h2
        simp [encodeRow]
    · simp only [List.mem_singleton] at hcc
      subst hcc
      simp

/-- Witness for C5: the pipeline against the sample store. -/
theorem extended_pipeline_witness :
    runConn sampleDB ⟨""⟩
        [.parse "SELECT 1", .bind, .describe 'S', .execute, .sync] =
      ([.parseComplete, .bindComplete, .parameterDescription [], .noData,
        .rowDescription [⟨"n", 0, 0, 20, -1, -1, 0⟩], .dataRow [some "1"],
        .commandComplete "SELECT 1", .readyForQuery 'I'],
       ["SELECT 1"]) :=
  ((extended_pipeline sampleDB "SELECT 1" [⟨"n", "INTEGER"⟩]
      [[some (.vInt 1)]] (by decide) rfl).1).trans (by decide)

/-- Claim C2: Reload is all-or-nothing with respect to publication.  When the
open of the new handle fails, the published reference is unchanged, nothing
is locked, swapped or closed, and the wrapped error is returned to the
caller.  When it succeeds, the reference is swapped while the exclusive lock
is held, the lock is released, and only afterwards is the superseded handle
closed — the event list shows the close strictly after the release. -/
theorem reload_all_or_nothing (ping : String → Option String) (path : String)
    (s : SrvState) :
    (∀ e, openSQLite ping path = .error e →
        Reload ping path s = (.error ("opening new database: " ++ e), s, [])) ∧
    (∀ h, openSQLite ping path = .ok h →
        Reload ping path s =
          (.ok (), { db := some h },
           [REvent.lockAcquire, REvent.swap s.db h, REvent.lockRelease] ++
             match s.db with
             | some old => [REvent.closeHandle old]
             | none => [])) := by
  refine ⟨fun e he => ?_, fun h hh => ?_⟩
  · simp [Reload, he]
  · simp [Reload, hh]

/-- Claim C3: with no username configured authentication always succeeds with
an AuthenticationOk and has no failure path; with a username configured it
succeeds exactly when the client's reply is a password message whose password
equals the configured one byte for byte, and on any failure (wrong password
or a non-password reply) exactly one ErrorResponse is sent, with severity
FATAL and SQLSTATE 28P01, after which the connection is closed. -/
theorem auth_contract (u p : String) (reply : FrontendMsg) :
    ((handleAuth u p reply).2 = true ↔ u = "" ∨ reply = .passwordMessage p) ∧
    ((handleAuth u p reply).2 = true →
        (handleAuth u p reply).1 = [.authenticationOk] ∨
        (handleAuth u p reply).1 =
          [.authenticationCleartextPassword, .authenticationOk]) ∧
    ((handleAuth u p reply).2 = false →
        ∃ m, (handleAuth u p reply).1 =
          [.authenticationCleartextPassword,
           .errorResponse "FATAL" "28P01" m]) := by
  by_cases hu : u = ""
  · simp [handleAuth, hu]
  · cases reply with
    | passwordMessage pw => by_cases hp : pw = p <;> simp [handleAuth, hu, hp]
    | queryMsg s2 => simp [handleAuth, hu]
    | parse q2 => simp [handleAuth, hu]
    | bind => simp [handleAuth, hu]
    | describe c2 => simp [handleAuth, hu]
    | execute => simp [handleAuth, hu]
    | sync => simp [handleAuth, hu]
    | terminate => simp [handleAuth, hu]
    | unsupported t2 => simp [handleAuth, hu]

/-- Claim C4: when a username is configured the authentication outcome is a
function of the configured credentials and the submitted password alone: the
startup message (which carries the client-supplied username) is never read,
so two runs differing only in the client username behave identically, and
any client username is accepted once the submitted password matches. -/
theorem auth_ignores_client_username (opts : Options) (s1 s2 : StartupMessage)
    (reply : FrontendMsg) :
    connAuth opts s1 reply = connAuth opts s2 reply ∧
    (∀ su : StartupMessage,
        (connAuth opts su (.passwordMessage opts.password)).2 = true) := by
  refine ⟨rfl, fun su => ?_⟩
  by_cases hu : opts.username = "" <;> simp [connAuth, handleAuth, hu]

/-- Claim C6: a Query whose text trims to the empty string or to a lone
statement terminator draws an EmptyQueryResponse followed by ReadyForQuery —
never an ErrorResponse — leaves the connection state unchanged, and executes
nothing against the store. -/
theorem empty_query_response (db : DB) (st : ConnState) (text : String)
    (h : trimSpace text = "" ∨ trimSpace text = ";") :
    handleMsg db st (.queryMsg text) =
      (st, [.emptyQueryResponse, .readyForQuery 'I'], []) := by
  simp [handleMsg, h]

/-- Witness for C6 at the semicolon-only text " ; ". -/
theorem empty_query_response_witness :
    handleMsg sampleDB ⟨""⟩ (.queryMsg " ; ") =
      (⟨""⟩, [.emptyQueryResponse, .readyForQuery 'I'], []) :=
  empty_query_response sampleDB ⟨""⟩ " ; " (Or.inr rfl)

/-- Claim C7: the type mapper is case-insensitive (it depends only on the
upper-cased name), sends the integer family to OID 20, the
float/decimal/numeric family to OID 701, booleans to OID 16, blobs to OID
17, and everything else — including text, character and absent type names —
to the text OID 25. -/
theorem type_oid_mapping :
    (∀ s t : String, strToUpper s = strToUpper t → goTypeToOID s = goTypeToOID t) ∧
    (∀ s ∈ integerNames, goTypeToOID s = 20) ∧
    (∀ s ∈ floatNames, goTypeToOID s = 701) ∧
    (∀ s ∈ boolNames, goTypeToOID s = 16) ∧
    (∀ s ∈ blobNames, goTypeToOID s = 17) ∧
    (∀ s : String,
        strToUpper s ∉ integerNames ++ floatNames ++ boolNames ++ blobNames →
        goTypeToOID s = 25) ∧
    goTypeToOID "integer" = 20 ∧ goTypeToOID "Real" = 701 ∧
    goTypeToOID "boolean" = 16 ∧ goTypeToOID "blob" = 17 ∧
    goTypeToOID "TEXT" = 25 ∧ goTypeToOID "CHARACTER" = 25 ∧
    goTypeToOID "" = 25 := by
  refine ⟨fun s t h => ?_, by decide, by decide, by decide, by decide,
    fun s hs => ?_, by decide, by decide, by decide, by decide,
    by decide, by decide, by decide⟩
  · simp only [goTypeToOID, h]
  · have h1 : strToUpper s ∉ integerNames := fun h => hs (by simp [List.mem_append, h])
    have h2 : strToUpper s ∉ floatNames := fun h => hs (by simp [List.mem_append, h])
    have h3 : strToUpper s ∉ boolNames := fun h => hs (by simp [List.mem_append, h])
    have h4 : strToUpper s ∉ blobNames := fun h => hs (by simp [List.mem_append, h])
    simp only [goTypeToOID, oidText]
    rw [if_neg h1, if_neg h2, if_neg h3, if_neg h4]

/-- Claim C8: whenever execution fails the client gets an ErrorResponse with
SQLSTATE 42601 carrying the engine's error text verbatim.  A failure of the
Query call itself yields only that ErrorResponse; a failure during row
streaming leaves the RowDescription and every DataRow already sent in place —
a truncated result followed by the error, with no CommandComplete. -/
theorem query_error_reporting (db : DB) (q : String) :
    (∀ e, db.exec (trimSpace q) = .queryError e →
        executeQuery db q = [.errorResponse "ERROR" "42601" e]) ∧
    (∀ cols rows e, db.exec (trimSpace q) = .rowsOk cols rows (some e) →
        executeQuery db q =
          .rowDescription (cols.map fieldOf) ::
            (rows.map encodeRow ++ [.errorResponse "ERROR" "42601" e])) := by
  refine ⟨fun e he => ?_, fun cols rows e he => ?_⟩
  · simp [executeQuery, he]
  · simp [executeQuery, he]

/-- Claim C9: every DataRow executeQuery emits encodes one scanned row of the
result, cell by cell: an absent (NULL) value is sent as the explicit null
marker, and every present value — of any of the types the engine returns —
as its textual rendering. -/
theorem data_row_encoding :
    (∀ (db : DB) (q : String) (vs : List (Option String)),
        .dataRow vs ∈ executeQuery db q →
        ∃ cols rows rowErr r,
          db.exec (trimSpace q) = .rowsOk cols rows rowErr ∧
          r ∈ rows ∧ vs = r.map encodeValue) ∧
    encodeValue none = none ∧
    (∀ v, encodeValue (some v) = some (goFormat v)) := by
  refine ⟨?_, rfl, fun v => rfl⟩
  intro db q vs hmem
  rcases hres : db.exec (trimSpace q) with e | ⟨cols, rows, rowErr⟩
  · simp [executeQuery, hres] at hmem
  · rcases rowErr with _ | e
    · simp only [executeQuery, hres, List.mem_cons, List.mem_append,
        List.mem_map, List.mem_singleton] at hmem
      rcases hmem with h | ⟨r, hr, he⟩ | h
      · exact absurd h (by simp)
      · refine ⟨cols, rows, none, r, rfl, hr, ?_⟩
        simpa [encodeRow, eq_comm] using he
      · exact absurd h (by simp)
    · simp only [executeQuery, hres, List.mem_cons, List.mem_append,
        List.mem_map, List.mem_singleton] at hmem
      rcases hmem with h | ⟨r, hr, he⟩ | h
      · exact absurd h (by simp)
      · refine ⟨cols, rows, some e, r, rfl, hr, ?_⟩
        simpa [encodeRow, eq_comm] using he
      · exact absurd h (by simp)

/-- Claim C10: opening a store with an empty path or the literal ":memory:"
never fails and yields a fresh in-memory instance, whatever the driver's
connectivity check would say (it is skipped, as is the read-only file URI):
so both server construction and Reload with such a path succeed, and Reload
silently replaces the served handle with the empty in-memory store. -/
theorem memory_path_open (ping : String → Option String) (s : SrvState)
    (prt : Nat) (u p : String) :
    openSQLite ping "" = .ok .mem ∧
    openSQLite ping ":memory:" = .ok .mem ∧
    New ping ⟨prt, "", u, p⟩ = .ok { db := some .mem } ∧
    New ping ⟨prt, ":memory:", u, p⟩ = .ok { db := some .mem } ∧
    (Reload ping "" s).1 = .ok () ∧
    (Reload ping "" s).2.1 = { db := some .mem } ∧
    (Reload ping ":memory:" s).1 = .ok () ∧
    (Reload ping ":memory:" s).2.1 = { db := some .mem } := by
  refine ⟨?_, ?_, ?_, ?_, ?_, ?_, ?_, ?_⟩ <;>
    simp [openSQLite, New, Reload]

end SqlFs
